import Mathlib

/-!
Verification of `scripts/ena_to_linkml.py`: conversion of ENA checklist XML
documents into LinkML-style schema records.

The Python source is shallowly embedded:
  * XML element trees (`xml.etree.ElementTree` elements) become the inductive
    `XmlElem`; `find` returns the first direct child with a given tag,
    `findall` returns all direct children with that tag, `get` reads an
    attribute with a default — exactly the subset of the ElementTree API the
    script uses.
  * Python dicts (which preserve insertion order and update in place on key
    reuse) become association lists with the insert-or-update operation
    `dictInsert`.
  * Python string helpers are embedded as structural recursions over the
    character list: `pyStrip` is `str.strip()`, `pySplit` is
    `str.split(sep)` for a one-character separator, `pyCapitalize` is
    `str.capitalize()` (first character uppercased, the rest lowercased;
    restricted, as `Char.toUpper`/`Char.toLower` are, to ASCII case mapping).
  * Python truthiness tests on strings (`if u.text:`) become emptiness tests
    on the underlying `Option String`.
  * The uncaught Python `AttributeError` raised by `descriptor.findall`
    / `descriptor.find` when `descriptor` is `None` becomes the explicit
    error value `PyErr.attributeError` of `parse_checklist_xml`.

Everything lives in the `EnaToLinkml` namespace because the record for a
parsed FIELD element keeps its source name `Field`, which Mathlib already
uses for the algebraic structure.
-/

namespace EnaToLinkml

/-- Error kinds a checklist parse can surface: `attributeError` models the
Python `AttributeError` raised when an attribute is accessed on `None`;
`structureError` models a dedicated missing-required-element error (the error
kind the design documentation names; the script never raises it). -/
inductive PyErr where
  | attributeError
  | structureError
deriving DecidableEq, Repr

/-- Insert-or-update on an association list: replaces the value at an existing
key in place (keeping its position) or appends a fresh key at the end.  This is
exactly the behaviour of `d[k] = v` on a Python (3.7+) dict. -/
def dictInsert {α : Type} (k : String) (v : α) : List (String × α) → List (String × α)
  | [] => [(k, v)]
  | (k', v') :: rest => if k' = k then (k, v) :: rest else (k', v') :: dictInsert k v rest

/-- Lookup in an association list, as `d.get(k)` on a Python dict. -/
def dictGet {α : Type} (k : String) : List (String × α) → Option α
  | [] => none
  | (k', v) :: rest => if k' = k then some v else dictGet k rest

/-- Python `str.strip()`: drop whitespace from both ends. -/
def pyStrip (s : String) : String :=
  String.mk (((s.data.dropWhile Char.isWhitespace).reverse.dropWhile Char.isWhitespace).reverse)

/-- Splitting a character list at every occurrence of a separator character;
the result always has one (possibly empty) group per separator-delimited
stretch, so the empty list yields `[[]]`. -/
def splitChars (sep : Char) : List Char → List (List Char)
  | [] => [[]]
  | c :: rest =>
    match splitChars sep rest with
    | [] => [[c]]
    | g :: gs => if c = sep then [] :: g :: gs else (c :: g) :: gs

/-- Python `str.split(sep)` for a one-character separator: `"".split` is
`[""]`, adjacent separators produce empty segments. -/
def pySplit (sep : Char) (s : String) : List String :=
  (splitChars sep s.data).map String.mk

/-- An XML element: tag, attributes, text content (`none` models ElementTree's
`text is None`), and direct children in document order. -/
inductive XmlElem where
  | mk (tag : String) (attrs : List (String × String)) (text : Option String)
       (children : List XmlElem)

def XmlElem.tag : XmlElem → String
  | .mk t _ _ _ => t

def XmlElem.attrs : XmlElem → List (String × String)
  | .mk _ a _ _ => a

def XmlElem.text : XmlElem → Option String
  | .mk _ _ t _ => t

def XmlElem.children : XmlElem → List XmlElem
  | .mk _ _ _ c => c

/-- First element of a list of elements carrying the given tag, if any. -/
def findIn (tag : String) : List XmlElem → Option XmlElem
  | [] => none
  | e :: rest => if e.tag = tag then some e else findIn tag rest

/-- `el.find(tag)` of ElementTree: first direct child with the tag. -/
def XmlElem.find (el : XmlElem) (tag : String) : Option XmlElem :=
  findIn tag el.children

/-- `el.findall(tag)` of ElementTree: all direct children with the tag, in
document order. -/
def XmlElem.findall (el : XmlElem) (tag : String) : List XmlElem :=
  el.children.filter (fun e => e.tag == tag)

/-- `el.get(attr, default)` of ElementTree. -/
def XmlElem.get (el : XmlElem) (attr default : String) : String :=
  (dictGet attr el.attrs).getD default

/-- `_text(parent, tag)` of the script, for a parent that is present: text
content of the named child, `(el.text or "").strip()`, or `""` when the child
is absent. -/
def _text (parent : XmlElem) (tag : String) : String :=
  match parent.find tag with
  | some el => pyStrip (el.text.getD "")
  | none => ""

/-- One parsed FIELD element (the field dict built by `_parse_field`).
`field_type` and `regex_value` are `Option` because the script initialises
them to `None` and only sometimes overwrites them. -/
structure Field where
  label : String
  name : String
  description : String
  field_type : Option String
  regex_value : Option String
  choices : List String
  units : List String
  mandatory : String
  multiplicity : String
deriving DecidableEq, Repr

/-- One parsed FIELD_GROUP element. -/
structure FieldGroup where
  name : String
  restriction_type : String
  fields : List Field
deriving DecidableEq, Repr

/-- The structured record returned by `parse_checklist_xml`. -/
structure ParsedChecklist where
  accession : String
  checklist_type : String
  label : String
  name : String
  description : String
  authority : String
  field_groups : List FieldGroup
deriving DecidableEq, Repr

/-- `_parse_field(field_el)`: parse a single FIELD element into a record.
Choice values go through `_text` (strip, then skip if empty); unit texts are
tested for truthiness BEFORE stripping (`if u.text: append(u.text.strip())`),
so a whitespace-only unit text passes the test and contributes `""`. -/
def _parse_field (field_el : XmlElem) : Field :=
  let base : Field :=
    { label := _text field_el "LABEL"
      name := _text field_el "NAME"
      description := _text field_el "DESCRIPTION"
      field_type := none
      regex_value := none
      choices := []
      units := []
      mandatory := _text field_el "MANDATORY"
      multiplicity := _text field_el "MULTIPLICITY" }
  let withType : Field :=
    match field_el.find "FIELD_TYPE" with
    | none => base
    | some ft =>
      match ft.find "TEXT_CHOICE_FIELD" with
      | some choice_field =>
        { base with
          field_type := some "TEXT_CHOICE_FIELD"
          choices := (choice_field.findall "TEXT_VALUE").filterMap (fun tv =>
            let val := _text tv "VALUE"
            if val = "" then none else some val) }
      | none =>
        match ft.find "TEXT_FIELD" with
        | some text_field =>
          { base with
            field_type := some "TEXT_FIELD"
            regex_value :=
              match text_field.find "REGEX_VALUE" with
              | some regex_el =>
                match regex_el.text with
                | some t => if t = "" then none else some (pyStrip t)
                | none => none
              | none => none }
        | none => { base with field_type := some "TEXT_FIELD" }
  let units : List String :=
    match field_el.find "UNITS" with
    | none => []
    | some units_el =>
      (units_el.findall "UNIT").filterMap (fun u =>
        match u.text with
        | some t => if t = "" then none else some (pyStrip t)
        | none => none)
  { withType with units := units }

/-- `parse_checklist_xml` applied to the already-loaded document root.  When
the (possibly fallen-back) checklist container has no DESCRIPTOR child,
`descriptor` is `None` in the script and the next attribute access
(`_text(descriptor, "LABEL")`) raises `AttributeError`. -/
def parse_checklist_xml (root : XmlElem) : Except PyErr ParsedChecklist :=
  let checklist := (root.find "CHECKLIST").getD root
  let accession := checklist.get "accession" ""
  let checklist_type := checklist.get "checklistType" ""
  match checklist.find "DESCRIPTOR" with
  | none => Except.error PyErr.attributeError
  | some descriptor =>
    Except.ok
      { accession := accession
        checklist_type := checklist_type
        label := _text descriptor "LABEL"
        name := _text descriptor "NAME"
        description := _text descriptor "DESCRIPTION"
        authority := _text descriptor "AUTHORITY"
        field_groups := (descriptor.findall "FIELD_GROUP").map (fun fg =>
          { name := _text fg "NAME"
            restriction_type := fg.get "restrictionType" ""
            fields := (fg.findall "FIELD").map _parse_field }) }

/-- Python `str.capitalize`: the first character uppercased, every remaining
character lowercased. -/
def pyCapitalize (s : String) : String :=
  match s.data with
  | [] => ""
  | c :: rest => String.mk (c.toUpper :: rest.map Char.toLower)

/-- `_make_enum_name(field_name)`: `"".join(p.capitalize() for p in
field_name.split("_")) + "Menu"`. -/
def _make_enum_name (field_name : String) : String :=
  String.join ((pySplit '_' field_name).map pyCapitalize) ++ "Menu"

/-- `_make_schema_name(accession)`: the accession verbatim. -/
def _make_schema_name (accession : String) : String :=
  accession

/-- Python `base_uri.rstrip("/")`: drop every trailing slash. -/
def rstripSlashes (s : String) : String :=
  String.mk ((s.data.reverse.dropWhile (fun c => c = '/')).reverse)

/-- A LinkML slot record as built by `_build_slot`.  Optional keys of the
Python dict (`required`, `pattern`, `comments`) are `Option`s: `none` means
the key is absent from the dict. -/
structure Slot where
  name : String
  title : String
  description : String
  range : String
  required : Option Bool
  pattern : Option String
  comments : Option (List String)
deriving DecidableEq, Repr

/-- A LinkML enum record as built by `_build_enum`.  `permissible_values` is
the insertion-ordered dict mapping each value to its display text (`{"text":
val}` in the source, represented by the text string itself). -/
structure EnumDef where
  name : String
  permissible_values : List (String × String)
deriving DecidableEq, Repr

/-- One `slot_usage` entry: `{"rank": rank, "slot_group": group-name}`. -/
structure Usage where
  rank : Nat
  slot_group : String
deriving DecidableEq, Repr

/-- `_build_slot(field)`: build a LinkML slot dict from a parsed field. -/
def _build_slot (field : Field) : Slot :=
  { name := field.name
    title := field.label
    description := field.description
    range :=
      if field.field_type = some "TEXT_CHOICE_FIELD" ∧ field.choices ≠ [] then
        _make_enum_name field.name
      else "string"
    required := if field.mandatory = "mandatory" then some true else none
    pattern :=
      match field.regex_value with
      | some r => if r = "" then none else some r
      | none => none
    comments :=
      if field.units ≠ [] then
        some ["Allowed units: " ++ String.intercalate ", " field.units]
      else none }

/-- `_build_enum(field)`: derived name plus the dict of permissible values,
filled by `pvs[val] = {"text": val}` over the choices in order. -/
def _build_enum (field : Field) : EnumDef :=
  { name := _make_enum_name field.name
    permissible_values := field.choices.foldl (fun pvs val => dictInsert val val pvs) [] }

/-- The mutable state of the slot/enum-building loop of `convert_to_linkml`:
the dicts `slots` and `enums`, the list `slot_names`, the dict `slot_usage`,
and the rank counter. -/
structure BuildState where
  slots : List (String × Slot)
  enums : List (String × EnumDef)
  slot_names : List String
  slot_usage : List (String × Usage)
  rank : Nat
deriving Repr

/-- One iteration of the field loop of `convert_to_linkml`, for a field
together with its owning group's name. -/
def buildStep (st : BuildState) (gf : String × Field) : BuildState :=
  { slots := dictInsert gf.2.name (_build_slot gf.2) st.slots
    enums :=
      if gf.2.field_type = some "TEXT_CHOICE_FIELD" ∧ gf.2.choices ≠ [] then
        dictInsert (_build_enum gf.2).name (_build_enum gf.2) st.enums
      else st.enums
    slot_names := st.slot_names ++ [gf.2.name]
    slot_usage := dictInsert gf.2.name ⟨st.rank, gf.1⟩ st.slot_usage
    rank := st.rank + 1 }

/-- The whole field loop, over the flattened (group-major) field sequence. -/
def buildFold (fs : List (String × Field)) (st : BuildState) : BuildState :=
  fs.foldl buildStep st

/-- The flattened (group-major, then field-within-group) traversal order of
the nested `for group: for field:` loops, pairing each field with its owning
group's name. -/
def flattenFields : List FieldGroup → List (String × Field)
  | [] => []
  | g :: rest => g.fields.map (fun f => (g.name, f)) ++ flattenFields rest

/-- Total number of FIELD elements across all groups. -/
def totalFields : List FieldGroup → Nat
  | [] => 0
  | g :: rest => g.fields.length + totalFields rest

/-- The fixed `dh_interface` base class record. -/
structure DhInterfaceClass where
  name : String
  description : String
  from_schema : String
deriving DecidableEq, Repr

/-- The main class record, keyed by the accession in the source's `classes`
dict: slot-name list in source order and the `slot_usage` dict. -/
structure MainClass where
  name : String
  title : String
  description : String
  is_a : String
  slots : List String
  slot_usage : List (String × Usage)
deriving DecidableEq, Repr

/-- The LinkML schema record produced by `convert_to_linkml`.  `enums` is an
`Option` because the source only adds the `enums` key when the enum dict is
non-empty. -/
structure Schema where
  id : String
  name : String
  title : String
  description : String
  version : String
  default_range : String
  dh_interface : DhInterfaceClass
  main_class : MainClass
  slots : List (String × Slot)
  enums : Option (List (String × EnumDef))
deriving Repr

/-- `convert_to_linkml(checklist, base_uri)`. -/
def convert_to_linkml (checklist : ParsedChecklist) (base_uri : String) : Schema :=
  let accession := checklist.accession
  let schema_id := rstripSlashes base_uri ++ "/" ++ accession
  let st := buildFold (flattenFields checklist.field_groups) ⟨[], [], [], [], 1⟩
  { id := schema_id
    name := _make_schema_name accession
    title := checklist.label
    description := checklist.description
    version := "1.0.0"
    default_range := "string"
    dh_interface :=
      { name := "dh_interface"
        description := "A DataHarmonizer interface"
        from_schema := schema_id }
    main_class :=
      { name := accession
        title := checklist.label
        description := checklist.description
        is_a := "dh_interface"
        slots := st.slot_names
        slot_usage := st.slot_usage }
    slots := st.slots
    enums := if st.enums.isEmpty then none else some st.enums }

/-- The enum dict of a schema, empty when the `enums` key is absent. -/
def schemaEnums (s : Schema) : List (String × EnumDef) :=
  s.enums.getD []

/-- Capitalization of one segment as the specification describes it:
uppercase the first letter and leave the rest of the segment unchanged. -/
def capFirstOnly (s : String) : String :=
  match s.data with
  | [] => ""
  | c :: rest => String.mk (c.toUpper :: rest)

/-- Enum-name derivation as the specification describes it: split on
underscore, uppercase the first letter of every segment leaving the rest of
the segment unchanged, concatenate, append the literal suffix. -/
def derive_enum_name_spec (name : String) : String :=
  String.join ((pySplit '_' name).map capFirstOnly) ++ "Menu"

/-- Capitalization of one segment as amended: uppercase the first character
and lowercase all the remaining characters. -/
def capFirstLowerRest (s : String) : String :=
  match s.data with
  | [] => ""
  | c :: rest => String.mk [c.toUpper] ++ String.mk (rest.map Char.toLower)

/-- Enum-name derivation as amended: split on underscore, uppercase each
segment's first character, lowercase the rest of the segment, concatenate,
append the literal suffix. -/
def derive_enum_name_amended (name : String) : String :=
  String.join ((pySplit '_' name).map capFirstLowerRest) ++ "Menu"

/-- The units list as amended: the stripped texts of exactly those UNIT
children of the UNITS container whose raw (unstripped) text is present and
non-empty — so a whitespace-only raw text passes the filter and contributes
an empty-string entry. -/
def unitsAmended (field_el : XmlElem) : List String :=
  match field_el.find "UNITS" with
  | none => []
  | some units_el =>
    ((units_el.findall "UNIT").filter (fun u => !(u.text.getD "").isEmpty)).map
      (fun u => pyStrip (u.text.getD ""))

/-- The expected `slot_usage` association list for a flattened field sequence,
ranks counted from `r`: one entry per field, keyed by the field's name, with
consecutive ranks and the owning group's name. -/
def usageList : List (String × Field) → Nat → List (String × Usage)
  | [], _ => []
  | gf :: rest, r => (gf.2.name, ⟨r, gf.1⟩) :: usageList rest (r + 1)

/-- Whether a field produces an enum dict entry under name `n`: it is a
choice field with a non-empty choice list whose derived enum name is `n`. -/
def isEnumProducer (n : String) (f : Field) : Prop :=
  f.field_type = some "TEXT_CHOICE_FIELD" ∧ f.choices ≠ [] ∧ _make_enum_name f.name = n

instance (n : String) (f : Field) : Decidable (isEnumProducer n f) := by
  unfold isEnumProducer
  infer_instance

/-- The last field of a flattened field sequence that produces an enum entry
under name `n`, if any. -/
def lastProducer (n : String) : List (String × Field) → Option Field
  | [] => none
  | gf :: rest =>
    match lastProducer n rest with
    | some f => some f
    | none => if isEnumProducer n gf.2 then some gf.2 else none

/-- Folding `dictInsert` over a list of key-value pairs, as the loops
`slots[k] = v` / `pvs[val] = {"text": val}` do. -/
def insertAll {α : Type} (d : List (String × α)) (kvs : List (String × α)) :
    List (String × α) :=
  kvs.foldl (fun acc kv => dictInsert kv.1 kv.2 acc) d

/-- A minimal parsed field with a given name and otherwise empty data, for
concrete test inputs. -/
def mkField (n : String) : Field :=
  { label := "", name := n, description := "", field_type := none, regex_value := none
    choices := [], units := [], mandatory := "", multiplicity := "" }

/-- A minimal parsed choice field with a given name and choice list. -/
def mkChoiceField (n : String) (cs : List String) : Field :=
  { mkField n with field_type := some "TEXT_CHOICE_FIELD", choices := cs }

/-- Concrete FIELD element with no FIELD_TYPE child (for the type default). -/
def fieldElemNoType : XmlElem :=
  .mk "FIELD" [] none [.mk "NAME" [] (some "depth") []]

/-- Concrete document root whose CHECKLIST child has no DESCRIPTOR. -/
def rootNoDescriptor : XmlElem :=
  .mk "CHECKLIST_SET" [] none [.mk "CHECKLIST" [("accession", "ERC000001")] none []]

/-- Concrete FIELD element whose single UNIT child has whitespace-only text. -/
def fieldElemBlankUnit : XmlElem :=
  .mk "FIELD" [] none
    [.mk "NAME" [] (some "depth") [],
     .mk "UNITS" [] none [.mk "UNIT" [] (some " ") []]]

/-- Concrete checklist with two fields sharing one name in one group. -/
def checklistDupNames : ParsedChecklist :=
  { accession := "ERC000001", checklist_type := "", label := "", name := ""
    description := "", authority := ""
    field_groups := [⟨"g", "", [mkField "a", mkField "a"]⟩] }

/-- Concrete checklist with one choice field carrying a duplicated choice. -/
def checklistDupChoice : ParsedChecklist :=
  { accession := "ERC000001", checklist_type := "", label := "", name := ""
    description := "", authority := ""
    field_groups := [⟨"g", "", [mkChoiceField "a" ["x", "x"]]⟩] }

/-- Concrete checklist with two distinct choice fields (`a_b` and `a__b`)
whose names derive the same enum name `ABMenu`. -/
def checklistEnumClash : ParsedChecklist :=
  { accession := "ERC000001", checklist_type := "", label := "", name := ""
    description := "", authority := ""
    field_groups := [⟨"g", "", [mkChoiceField "a_b" ["x"], mkChoiceField "a__b" ["y"]]⟩] }

/-- Concrete two-group checklist with unique field names, used by witnesses. -/
def checklistPlain : ParsedChecklist :=
  { accession := "ERC000001", checklist_type := "", label := "", name := ""
    description := "", authority := ""
    field_groups :=
      [⟨"g1", "", [mkField "a", mkChoiceField "b" ["x", "y"]]⟩,
       ⟨"g2", "", [{ mkField "c" with mandatory := "mandatory" }]⟩] }

/-! ### Association-list lemmas -/

theorem dictGet_dictInsert_self {α : Type} (k : String) (v : α) :
    ∀ l : List (String × α), dictGet k (dictInsert k v l) = some v := by
  intro l
  induction l with
  | nil => simp [dictInsert, dictGet]
  | cons p rest ih =>
    by_cases h : p.1 = k
    · simp [dictInsert, dictGet, h]
    · simpa [dictInsert, dictGet, h] using ih

theorem dictGet_dictInsert_ne {α : Type} {k k' : String} (h : k' ≠ k) (v : α) :
    ∀ l : List (String × α), dictGet k (dictInsert k' v l) = dictGet k l := by
  intro l
  induction l with
  | nil => simp [dictInsert, dictGet, h]
  | cons p rest ih =>
    by_cases hp : p.1 = k'
    · simp only [dictInsert, if_pos hp, dictGet]
      rw [if_neg h, if_neg (show p.1 ≠ k from fun hk => h (hp.symm.trans hk))]
    · simp only [dictInsert, if_neg hp, dictGet]
      by_cases hk : p.1 = k <;> simp [hk, ih]

theorem mem_dictInsert {α : Type} {p : String × α} {k : String} {v : α} :
    ∀ {l : List (String × α)}, p ∈ dictInsert k v l → p = (k, v) ∨ p ∈ l := by
  intro l
  induction l with
  | nil => simp [dictInsert]
  | cons q rest ih =>
    by_cases h : q.1 = k
    · intro hm
      rcases List.mem_cons.mp (by simpa [dictInsert, h] using hm) with h1 | h1
      · exact Or.inl h1
      · exact Or.inr (List.mem_cons_of_mem _ h1)
    · intro hm
      rcases List.mem_cons.mp (by simpa [dictInsert, h] using hm) with h1 | h1
      · exact Or.inr (h1 ▸ List.mem_cons_self q rest)
      · rcases ih h1 with h2 | h2
        · exact Or.inl h2
        · exact Or.inr (List.mem_cons_of_mem _ h2)

theorem dictInsert_eq_append {α : Type} {k : String} {v : α} :
    ∀ {l : List (String × α)}, (∀ p ∈ l, p.1 ≠ k) → dictInsert k v l = l ++ [(k, v)] := by
  intro l
  induction l with
  | nil => intro _; rfl
  | cons q rest ih =>
    intro h
    have hq : q.1 ≠ k := h q (List.mem_cons_self q rest)
    simp only [dictInsert, if_neg hq, List.cons_append, List.cons.injEq, true_and]
    exact ih (fun p hp => h p (List.mem_cons_of_mem _ hp))

theorem insertAll_eq_append {α : Type} :
    ∀ (kvs d : List (String × α)), (kvs.map Prod.fst).Nodup →
      (∀ kv ∈ kvs, ∀ p ∈ d, p.1 ≠ kv.1) → insertAll d kvs = d ++ kvs := by
  intro kvs
  induction kvs with
  | nil => intro d _ _; simp [insertAll]
  | cons kv rest ih =>
    intro d hnd hdisj
    have hstep : dictInsert kv.1 kv.2 d = d ++ [kv] := by
      rw [dictInsert_eq_append (fun p hp => hdisj kv (List.mem_cons_self kv rest) p hp)]
    have hnd' : (rest.map Prod.fst).Nodup := (List.nodup_cons.mp (by simpa using hnd)).2
    have hhead : ∀ q ∈ rest, q.1 ≠ kv.1 := by
      intro q hq hqk
      have : kv.1 ∉ rest.map Prod.fst := (List.nodup_cons.mp (by simpa using hnd)).1
      exact this (hqk ▸ List.mem_map_of_mem Prod.fst hq)
    have hdisj' : ∀ q ∈ rest, ∀ p ∈ d ++ [kv], p.1 ≠ q.1 := by
      intro q hq p hp
      rcases List.mem_append.mp hp with hp | hp
      · exact hdisj q (List.mem_cons_of_mem _ hq) p hp
      · rcases List.mem_singleton.mp hp with rfl
        exact fun hk => hhead q hq hk.symm
    calc insertAll d (kv :: rest)
        = insertAll (dictInsert kv.1 kv.2 d) rest := rfl
      _ = insertAll (d ++ [kv]) rest := by rw [hstep]
      _ = (d ++ [kv]) ++ rest := ih (d ++ [kv]) hnd' hdisj'
      _ = d ++ (kv :: rest) := by simp

/-! ### String-helper lemmas -/

theorem pyCapitalize_eq_capFirstLowerRest (s : String) :
    pyCapitalize s = capFirstLowerRest s := by
  obtain ⟨l⟩ := s
  cases l with
  | nil => rfl
  | cons c rest => rfl

/-- The enum-name examples of the design documentation, on the code. -/
theorem make_enum_name_examples :
    _make_enum_name "trophic_level" = "TrophicLevelMenu" ∧
      _make_enum_name "sample_collection_device" = "SampleCollectionDeviceMenu" ∧
      _make_enum_name "depth" = "DepthMenu" := by
  refine ⟨by decide, by decide, by decide⟩

/-! ### C1: enum-name derivation -/

/-- C1 counterexample: for the field name `pH`, the code derives `PhMenu`
(Python `capitalize` lowercases the tail of the segment) while the claimed
rule, which leaves the rest of each segment unchanged, yields `PHMenu`. -/
theorem C1_counterexample :
    _make_enum_name "pH" = "PhMenu" ∧ derive_enum_name_spec "pH" = "PHMenu" ∧
      ("PhMenu" : String) ≠ "PHMenu" := by
  refine ⟨by decide, by decide, by decide⟩

/-- C1 (amended): the derived enum name is obtained by splitting the field
name on underscore, uppercasing the first character of every segment and
LOWERCASING the rest of the segment, concatenating, and appending `Menu`. -/
theorem C1_enum_name_amended (name : String) :
    _make_enum_name name = derive_enum_name_amended name := by
  unfold _make_enum_name derive_enum_name_amended
  rw [List.map_congr_left (fun s _ => pyCapitalize_eq_capFirstLowerRest s)]

/-! ### C2: absent type descriptor -/

/-- C2 counterexample: a FIELD element with no FIELD_TYPE child parses with
`field_type` left `None` — not the claimed `TEXT_FIELD`. -/
theorem C2_counterexample :
    (_parse_field fieldElemNoType).field_type = none ∧
      (_parse_field fieldElemNoType).regex_value = none ∧
      (none : Option String) ≠ some "TEXT_FIELD" := by
  refine ⟨by decide, by decide, by decide⟩

/-- C2 (amended): when the FIELD_TYPE descriptor element is absent the parsed
record's `field_type` stays `None` (null), with no regex pattern; only a
FIELD_TYPE element that is present but matches neither shape defaults to
`TEXT_FIELD`. -/
theorem C2_no_type_descriptor (el : XmlElem) (h : el.find "FIELD_TYPE" = none) :
    (_parse_field el).field_type = none ∧ (_parse_field el).regex_value = none := by
  unfold _parse_field
  rw [h]
  cases el.find "UNITS" <;> simp

/-- C2 witness at the concrete FIELD element without FIELD_TYPE. -/
theorem C2_no_type_descriptor_witness :
    (_parse_field fieldElemNoType).field_type = none ∧
      (_parse_field fieldElemNoType).regex_value = none :=
  C2_no_type_descriptor fieldElemNoType rfl

/-! ### C3: missing descriptor -/

/-- C3 counterexample: a document whose checklist container has no DESCRIPTOR
makes the parse fail with the generic attribute-access error
(`AttributeError` on `None`), which is not the dedicated structure error —
and it returns no record at all. -/
theorem C3_counterexample :
    parse_checklist_xml rootNoDescriptor = Except.error PyErr.attributeError ∧
      PyErr.attributeError ≠ PyErr.structureError := by
  refine ⟨rfl, by decide⟩

/-- C3 (amended): whenever the checklist container (after the document-root
fallback) has no DESCRIPTOR child, parsing fails with the generic Python
`AttributeError` raised by accessing `find` on `None` — not with a dedicated
`StructureError`, and not by returning a degenerate record. -/
theorem C3_missing_descriptor (root : XmlElem)
    (h : ((root.find "CHECKLIST").getD root).find "DESCRIPTOR" = none) :
    parse_checklist_xml root = Except.error PyErr.attributeError := by
  simp [parse_checklist_xml, h]

/-- C3 witness at the concrete DESCRIPTOR-less document. -/
theorem C3_missing_descriptor_witness :
    parse_checklist_xml rootNoDescriptor = Except.error PyErr.attributeError :=
  C3_missing_descriptor rootNoDescriptor rfl

/-! ### C6: required flag -/

/-- C6: a built slot carries `required = true` exactly when the field's raw
mandatory string is `"mandatory"`; for every other value the key is absent
(`none`), and it is never present as `false`. -/
theorem C6_required_iff_mandatory (f : Field) :
    ((_build_slot f).required = some true ↔ f.mandatory = "mandatory") ∧
      ((_build_slot f).required = none ↔ f.mandatory ≠ "mandatory") ∧
      (_build_slot f).required ≠ some false := by
  unfold _build_slot
  by_cases h : f.mandatory = "mandatory" <;> simp [h]

/-- C6 witness: a field with mandatory text `"mandatory"` gets the flag, a
field with empty mandatory text gets no `required` key. -/
theorem C6_required_iff_mandatory_witness :
    (_build_slot { mkField "a" with mandatory := "mandatory" }).required = some true ∧
      (_build_slot (mkField "b")).required = none :=
  ⟨(C6_required_iff_mandatory _).1.mpr rfl,
   (C6_required_iff_mandatory _).2.1.mpr (by decide)⟩

/-! ### Build-loop lemmas -/

theorem buildStep_slots (st : BuildState) (gf : String × Field) :
    (buildStep st gf).slots = dictInsert gf.2.name (_build_slot gf.2) st.slots := rfl

theorem buildStep_slot_usage (st : BuildState) (gf : String × Field) :
    (buildStep st gf).slot_usage = dictInsert gf.2.name ⟨st.rank, gf.1⟩ st.slot_usage := rfl

theorem buildStep_rank (st : BuildState) (gf : String × Field) :
    (buildStep st gf).rank = st.rank + 1 := rfl

theorem buildFold_nil (st : BuildState) : buildFold [] st = st := rfl

theorem buildFold_cons (gf : String × Field) (fs : List (String × Field)) (st : BuildState) :
    buildFold (gf :: fs) st = buildFold fs (buildStep st gf) := rfl

/-- The slot dict after the loop is the starting dict with one insert per
field, in flattened order. -/
theorem buildFold_slots :
    ∀ (fs : List (String × Field)) (st : BuildState),
      (buildFold fs st).slots =
        insertAll st.slots (fs.map (fun gf => (gf.2.name, _build_slot gf.2))) := by
  intro fs
  induction fs with
  | nil => intro st; rfl
  | cons gf rest ih =>
    intro st
    rw [buildFold_cons, ih]
    rfl

/-- The slot-usage dict after the loop, under unique field names that are
fresh for the starting dict: the starting dict extended by one entry per
field, with consecutive ranks from the starting counter and each owning
group's name. -/
theorem buildFold_slot_usage :
    ∀ (fs : List (String × Field)) (st : BuildState),
      (fs.map (fun gf => gf.2.name)).Nodup →
      (∀ gf ∈ fs, ∀ p ∈ st.slot_usage, p.1 ≠ gf.2.name) →
      (buildFold fs st).slot_usage = st.slot_usage ++ usageList fs st.rank := by
  intro fs
  induction fs with
  | nil => intro st _ _; simp [buildFold_nil, usageList]
  | cons gf rest ih =>
    intro st hnd hdisj
    have hstep : (buildStep st gf).slot_usage = st.slot_usage ++ [(gf.2.name, ⟨st.rank, gf.1⟩)] := by
      rw [buildStep_slot_usage]
      exact dictInsert_eq_append
        (fun p hp => hdisj gf (List.mem_cons_self gf rest) p hp)
    have hnd' : (rest.map (fun gf => gf.2.name)).Nodup :=
      (List.nodup_cons.mp (by simpa using hnd)).2
    have hfresh : gf.2.name ∉ rest.map (fun gf => gf.2.name) :=
      (List.nodup_cons.mp (by simpa using hnd)).1
    have hdisj' : ∀ q ∈ rest, ∀ p ∈ (buildStep st gf).slot_usage, p.1 ≠ q.2.name := by
      intro q hq p hp
      rw [hstep] at hp
      rcases List.mem_append.mp hp with hp | hp
      · exact hdisj q (List.mem_cons_of_mem _ hq) p hp
      · rcases List.mem_singleton.mp hp with rfl
        intro hk
        apply hfresh
        have hk' : gf.2.name = q.2.name := hk
        rw [hk']
        exact List.mem_map_of_mem (fun gf => gf.2.name) hq
    rw [buildFold_cons, ih (buildStep st gf) hnd' hdisj', hstep, buildStep_rank]
    simp [usageList]

/-- Ranks in the expected slot-usage list are consecutive from the start. -/
theorem usageList_map_rank :
    ∀ (fs : List (String × Field)) (r : Nat),
      (usageList fs r).map (fun p => p.2.rank) = List.range' r fs.length := by
  intro fs
  induction fs with
  | nil => intro r; rfl
  | cons gf rest ih => intro r; simp [usageList, List.range', ih]

theorem flattenFields_length :
    ∀ gs : List FieldGroup, (flattenFields gs).length = totalFields gs := by
  intro gs
  induction gs with
  | nil => rfl
  | cons g rest ih => simp [flattenFields, totalFields, ih]

/-- Every enum dict entry after the loop either was there before or stems
from a non-empty choice field of the processed sequence, keyed by its built
name. -/
theorem mem_enums_buildFold :
    ∀ (fs : List (String × Field)) (st : BuildState) (p : String × EnumDef),
      p ∈ (buildFold fs st).enums →
      p ∈ st.enums ∨ ∃ gf ∈ fs, gf.2.field_type = some "TEXT_CHOICE_FIELD" ∧
        gf.2.choices ≠ [] ∧ p = ((_build_enum gf.2).name, _build_enum gf.2) := by
  intro fs
  induction fs with
  | nil => intro st p hp; exact Or.inl hp
  | cons gf rest ih =>
    intro st p hp
    rw [buildFold_cons] at hp
    rcases ih (buildStep st gf) p hp with h1 | ⟨q, hq, hty, hch, hpq⟩
    · by_cases hc : gf.2.field_type = some "TEXT_CHOICE_FIELD" ∧ gf.2.choices ≠ []
      · have : p ∈ dictInsert (_build_enum gf.2).name (_build_enum gf.2) st.enums := by
          simpa [buildStep, hc] using h1
        rcases mem_dictInsert this with h2 | h2
        · exact Or.inr ⟨gf, List.mem_cons_self gf rest, hc.1, hc.2, h2⟩
        · exact Or.inl h2
      · exact Or.inl (by simpa [buildStep, hc] using h1)
    · exact Or.inr ⟨q, List.mem_cons_of_mem _ hq, hty, hch, hpq⟩

/-- The same for the slot dict: every entry was there before or is the built
slot of a processed field, keyed by the field's name. -/
theorem mem_slots_buildFold :
    ∀ (fs : List (String × Field)) (st : BuildState) (p : String × Slot),
      p ∈ (buildFold fs st).slots →
      p ∈ st.slots ∨ ∃ gf ∈ fs, p = (gf.2.name, _build_slot gf.2) := by
  intro fs
  induction fs with
  | nil => intro st p hp; exact Or.inl hp
  | cons gf rest ih =>
    intro st p hp
    rw [buildFold_cons] at hp
    rcases ih (buildStep st gf) p hp with h1 | ⟨q, hq, hpq⟩
    · rcases mem_dictInsert (by simpa [buildStep] using h1 :
        p ∈ dictInsert gf.2.name (_build_slot gf.2) st.slots) with h2 | h2
      · exact Or.inr ⟨gf, List.mem_cons_self gf rest, h2⟩
      · exact Or.inl h2
    · exact Or.inr ⟨q, List.mem_cons_of_mem _ hq, hpq⟩

/-- Lookup in the enum dict after the loop: the entry of the LAST enum
producer of the processed sequence for that name wins; with no producer the
starting dict decides. -/
theorem dictGet_enums_buildFold :
    ∀ (fs : List (String × Field)) (st : BuildState) (n : String),
      dictGet n (buildFold fs st).enums =
        match lastProducer n fs with
        | some f => some (_build_enum f)
        | none => dictGet n st.enums := by
  intro fs
  induction fs with
  | nil => intro st n; rfl
  | cons gf rest ih =>
    intro st n
    rw [buildFold_cons, ih]
    cases hlast : lastProducer n rest with
    | some f => simp [lastProducer, hlast]
    | none =>
      simp only [lastProducer, hlast]
      by_cases hprod : isEnumProducer n gf.2
      · obtain ⟨hty, hch, hname⟩ := hprod
        have henums : (buildStep st gf).enums =
            dictInsert (_build_enum gf.2).name (_build_enum gf.2) st.enums := by
          simp [buildStep, hty, hch]
        have hkey : (_build_enum gf.2).name = n := by
          simpa [_build_enum] using hname
        rw [if_pos ⟨hty, hch, hname⟩, henums, hkey, dictGet_dictInsert_self]
      · rw [if_neg hprod]
        by_cases hc : gf.2.field_type = some "TEXT_CHOICE_FIELD" ∧ gf.2.choices ≠ []
        · have hname : _make_enum_name gf.2.name ≠ n := by
            intro hn
            exact hprod ⟨hc.1, hc.2, hn⟩
          have henums : (buildStep st gf).enums =
              dictInsert (_build_enum gf.2).name (_build_enum gf.2) st.enums := by
            simp [buildStep, hc]
          rw [henums]
          exact dictGet_dictInsert_ne (by simpa [_build_enum] using hname) _ _
        · have henums : (buildStep st gf).enums = st.enums := by simp [buildStep, hc]
          rw [henums]

/-- A member of the sequence that produces enum name `n` forces
`lastProducer n` to be populated. -/
theorem lastProducer_isSome_of_mem :
    ∀ (fs : List (String × Field)) (gf : String × Field), gf ∈ fs →
      isEnumProducer n gf.2 → lastProducer n fs ≠ none := by
  intro fs
  induction fs with
  | nil => intro gf hm; cases hm
  | cons q rest ih =>
    intro gf hm hprod
    rcases List.mem_cons.mp hm with rfl | hm'
    · cases hlast : lastProducer n rest with
      | some f => simp [lastProducer, hlast]
      | none => simp [lastProducer, hlast, if_pos hprod]
    · cases hlast : lastProducer n rest with
      | some f => simp [lastProducer, hlast]
      | none => exact absurd hlast (ih gf hm' hprod)

/-- The enum dict actually reachable from a converted schema is the one the
loop built (when it is empty the `enums` key is absent and `schemaEnums`
yields the empty dict again). -/
theorem schemaEnums_convert (cl : ParsedChecklist) (uri : String) :
    schemaEnums (convert_to_linkml cl uri) =
      (buildFold (flattenFields cl.field_groups) ⟨[], [], [], [], 1⟩).enums := by
  unfold schemaEnums convert_to_linkml
  by_cases h : (buildFold (flattenFields cl.field_groups) ⟨[], [], [], [], 1⟩).enums.isEmpty
  · simp [h, List.isEmpty_iff.mp h]
  · simp [h]

theorem convert_slots (cl : ParsedChecklist) (uri : String) :
    (convert_to_linkml cl uri).slots =
      (buildFold (flattenFields cl.field_groups) ⟨[], [], [], [], 1⟩).slots := rfl

theorem convert_slot_usage (cl : ParsedChecklist) (uri : String) :
    (convert_to_linkml cl uri).main_class.slot_usage =
      (buildFold (flattenFields cl.field_groups) ⟨[], [], [], [], 1⟩).slot_usage := rfl

/-! ### C4: rank contiguity -/

/-- C4 counterexample: with two fields both named `a`, the second loop
iteration overwrites the first `slot_usage` entry, so the stored ranks are
`[2]` while the total field count is `2` — rank `1` is missing and the ranks
are not the contiguous sequence `1..2`. -/
theorem C4_counterexample :
    (convert_to_linkml checklistDupNames "u").main_class.slot_usage.map
        (fun p => p.2.rank) = [2] ∧
      totalFields checklistDupNames.field_groups = 2 ∧
      (1 : Nat) ∉ [2] ∧ ([2] : List Nat) ≠ List.range' 1 2 := by
  refine ⟨by decide, by decide, by decide, by decide⟩

/-- C4 (amended): for every parsed checklist whose field names are unique
across the whole checklist, the `slot_usage` map has one entry per field in
flattened group-major order, keyed by the field's name, with rank `i` for the
`i`-th field and `slot_group` the owning group's name; in particular the
stored ranks are the contiguous sequence `1..N` for `N` the total field
count.  (With duplicate names, later entries overwrite earlier ones and
ranks drop out.) -/
theorem C4_rank_contiguous (cl : ParsedChecklist) (uri : String)
    (h : ((flattenFields cl.field_groups).map (fun gf => gf.2.name)).Nodup) :
    (convert_to_linkml cl uri).main_class.slot_usage =
        usageList (flattenFields cl.field_groups) 1 ∧
      (convert_to_linkml cl uri).main_class.slot_usage.map (fun p => p.2.rank) =
        List.range' 1 (totalFields cl.field_groups) := by
  have h1 : (convert_to_linkml cl uri).main_class.slot_usage =
      usageList (flattenFields cl.field_groups) 1 := by
    rw [convert_slot_usage,
      buildFold_slot_usage _ _ h (by intro gf _ p hp; cases hp)]
    simp
  refine ⟨h1, ?_⟩
  rw [h1, usageList_map_rank, flattenFields_length]

/-- C4 witness at a concrete three-field, two-group checklist with unique
names. -/
theorem C4_rank_contiguous_witness :
    (convert_to_linkml checklistPlain "u").main_class.slot_usage =
        usageList (flattenFields checklistPlain.field_groups) 1 ∧
      (convert_to_linkml checklistPlain "u").main_class.slot_usage.map
          (fun p => p.2.rank) =
        List.range' 1 (totalFields checklistPlain.field_groups) :=
  C4_rank_contiguous checklistPlain "u" (by decide)

/-! ### C5: slot count -/

/-- C5: for every parsed checklist with unique field names, the slot dict has
exactly one entry per field, keyed by the field names in flattened order — no
duplication or loss. -/
theorem C5_slot_count (cl : ParsedChecklist) (uri : String)
    (h : ((flattenFields cl.field_groups).map (fun gf => gf.2.name)).Nodup) :
    (convert_to_linkml cl uri).slots.map Prod.fst =
        (flattenFields cl.field_groups).map (fun gf => gf.2.name) ∧
      (convert_to_linkml cl uri).slots.length = totalFields cl.field_groups := by
  have hkeys : ((flattenFields cl.field_groups).map
      (fun gf => (gf.2.name, _build_slot gf.2))).map Prod.fst =
      (flattenFields cl.field_groups).map (fun gf => gf.2.name) := by
    simp [List.map_map]
  have h1 : (convert_to_linkml cl uri).slots =
      (flattenFields cl.field_groups).map (fun gf => (gf.2.name, _build_slot gf.2)) := by
    rw [convert_slots, buildFold_slots]
    have happ := insertAll_eq_append
      ((flattenFields cl.field_groups).map (fun gf => (gf.2.name, _build_slot gf.2))) []
      (by rw [hkeys]; exact h) (by intro kv _ p hp; cases hp)
    simpa using happ
  constructor
  · rw [h1, hkeys]
  · rw [h1, List.length_map, flattenFields_length]

/-- C5 witness at the concrete unique-name checklist. -/
theorem C5_slot_count_witness :
    (convert_to_linkml checklistPlain "u").slots.map Prod.fst =
        (flattenFields checklistPlain.field_groups).map (fun gf => gf.2.name) ∧
      (convert_to_linkml checklistPlain "u").slots.length =
        totalFields checklistPlain.field_groups :=
  C5_slot_count checklistPlain "u" (by decide)

/-! ### C7: enum generation -/

/-- C7 counterexample: a choice field whose choice list carries the value `x`
twice produces an enum whose permissible-value dict has a single entry, so
the permissible values do NOT match the choice list order-preserved (the dict
keying silently de-duplicates). -/
theorem C7_counterexample :
    schemaEnums (convert_to_linkml checklistDupChoice "u") =
        [("AMenu", ⟨"AMenu", [("x", "x")]⟩)] ∧
      (mkChoiceField "a" ["x", "x"]).choices = ["x", "x"] ∧
      ([("x", "x")] : List (String × String)) ≠ ["x", "x"].map (fun v => (v, v)) := by
  refine ⟨by decide, by decide, by decide⟩

/-- C7 (amended): a field contributes a companion enum entry iff its type is
`TEXT_CHOICE_FIELD` and its choice list is non-empty (every enum dict entry
stems from such a field, and every such field's derived name is present);
the enum's permissible values are the choices deduplicated by dict keying —
they match the choice list exactly, order-preserved and each value mapped to
itself, whenever the choice list has no duplicates. -/
theorem C7_enum_generation (cl : ParsedChecklist) (uri : String) :
    (∀ p ∈ schemaEnums (convert_to_linkml cl uri),
        ∃ gf ∈ flattenFields cl.field_groups,
          gf.2.field_type = some "TEXT_CHOICE_FIELD" ∧ gf.2.choices ≠ [] ∧
            p = (_make_enum_name gf.2.name, _build_enum gf.2)) ∧
      (∀ gf ∈ flattenFields cl.field_groups,
        gf.2.field_type = some "TEXT_CHOICE_FIELD" → gf.2.choices ≠ [] →
          dictGet (_make_enum_name gf.2.name) (schemaEnums (convert_to_linkml cl uri)) ≠
            none) ∧
      (∀ f : Field, f.choices.Nodup →
        (_build_enum f).permissible_values = f.choices.map (fun v => (v, v))) := by
  refine ⟨?_, ?_, ?_⟩
  · intro p hp
    rw [schemaEnums_convert] at hp
    rcases mem_enums_buildFold _ _ p hp with h1 | ⟨gf, hm, hty, hch, hpq⟩
    · cases h1
    · exact ⟨gf, hm, hty, hch, hpq⟩
  · intro gf hm hty hch
    rw [schemaEnums_convert, dictGet_enums_buildFold]
    cases hl : lastProducer (_make_enum_name gf.2.name) (flattenFields cl.field_groups) with
    | some f => simp
    | none =>
      exact absurd hl
        (lastProducer_isSome_of_mem (flattenFields cl.field_groups) gf hm ⟨hty, hch, rfl⟩)
  · intro f hnd
    have hkeys : ((f.choices.map (fun v => (v, v))).map Prod.fst) = f.choices := by
      induction f.choices with
      | nil => rfl
      | cons a l ih => simpa using ih
    have happ := insertAll_eq_append (f.choices.map (fun v => (v, v))) []
      (by rw [hkeys]; exact hnd) (by intro kv _ p hp; cases hp)
    have hfold : (_build_enum f).permissible_values =
        insertAll [] (f.choices.map (fun v => (v, v))) := by
      simp [_build_enum, insertAll, List.foldl_map]
    rw [hfold, happ]
    simp

/-- C7 witness: for a concrete checklist with the choice field `b` (choices
`x`, `y`), the derived enum name is present, and the enum built from the
field lists the choices, order-preserved, each mapped to itself. -/
theorem C7_enum_generation_witness :
    dictGet "BMenu" (schemaEnums (convert_to_linkml checklistPlain "u")) ≠ none ∧
      (_build_enum (mkChoiceField "b" ["x", "y"])).permissible_values =
        [("x", "x"), ("y", "y")] :=
  ⟨(C7_enum_generation checklistPlain "u").2.1 ("g1", mkChoiceField "b" ["x", "y"])
      (by decide) rfl (by decide),
   ((C7_enum_generation checklistPlain "u").2.2 (mkChoiceField "b" ["x", "y"])
      (by decide)).trans (by decide)⟩

/-! ### C8: units and comments -/

/-- C8 counterexample: a UNIT child whose text is a single space is truthy in
Python before stripping, so it contributes the EMPTY string to the units list
(the claim says it contributes nothing), and the slot then gets a comments
key reading just `Allowed units: `. -/
theorem C8_counterexample :
    (_parse_field fieldElemBlankUnit).units = [""] ∧ ([""] : List String) ≠ [] ∧
      (_build_slot (_parse_field fieldElemBlankUnit)).comments =
        some ["Allowed units: "] := by
  refine ⟨by decide, by decide, by decide⟩

/-- C8 (amended): the parsed units list holds the stripped texts of exactly
those UNIT children whose RAW text is non-empty — so a whitespace-only raw
text contributes an empty-string entry rather than nothing — and the built
slot carries a comments key iff that list is non-empty, in which case it is
the one-element list of `Allowed units: ` followed by the comma-and-space
joined units. -/
theorem filterMap_strip_eq :
    ∀ l : List XmlElem,
      (l.filterMap (fun u =>
        match u.text with
        | some t => if t = "" then none else some (pyStrip t)
        | none => none)) =
      (l.filter (fun u => !(u.text.getD "").isEmpty)).map
        (fun u => pyStrip (u.text.getD "")) := by
  intro l
  induction l with
  | nil => rfl
  | cons u rest ih =>
    cases hu : u.text with
    | none => simpa [List.filterMap_cons, List.filter_cons, hu] using ih
    | some t =>
      by_cases ht : t = ""
      · have hb : t.isEmpty = true := (String.isEmpty_iff t).mpr ht
        simpa [List.filterMap_cons, List.filter_cons, hu, ht, hb] using ih
      · have hb : t.isEmpty = false := by
          cases hcase : t.isEmpty
          · rfl
          · exact absurd ((String.isEmpty_iff t).mp hcase) ht
        simpa [List.filterMap_cons, List.filter_cons, hu, ht, hb] using ih

theorem C8_units_and_comments :
    (∀ el : XmlElem, (_parse_field el).units = unitsAmended el) ∧
      (∀ f : Field,
        ((_build_slot f).comments = none ↔ f.units = []) ∧
          (f.units ≠ [] →
            (_build_slot f).comments =
              some ["Allowed units: " ++ String.intercalate ", " f.units])) := by
  constructor
  · intro el
    show (match el.find "UNITS" with
      | none => ([] : List String)
      | some units_el =>
        (units_el.findall "UNIT").filterMap (fun u =>
          match u.text with
          | some t => if t = "" then none else some (pyStrip t)
          | none => none)) = unitsAmended el
    unfold unitsAmended
    cases h : el.find "UNITS" with
    | none => rfl
    | some units_el => exact filterMap_strip_eq (units_el.findall "UNIT")
  · intro f
    by_cases h : f.units = [] <;> simp [_build_slot, h]

/-- C8 witness: the amended units rule at the whitespace-only concrete
element, and the comments key for a concrete field with one unit. -/
theorem C8_units_and_comments_witness :
    (_parse_field fieldElemBlankUnit).units = unitsAmended fieldElemBlankUnit ∧
      (_build_slot { mkField "a" with units := ["mg"] }).comments =
        some ["Allowed units: mg"] := by
  refine ⟨C8_units_and_comments.1 fieldElemBlankUnit, ?_⟩
  have h := (C8_units_and_comments.2 { mkField "a" with units := ["mg"] }).2 (by decide)
  rw [h]
  decide

/-! ### C9: duplicate enum names -/

/-- C9: the enum dict entry under a name is the enum built from the LAST
field, in flattened traversal order, that produces that name (last write
wins). -/
theorem C9_enum_last_write_wins (cl : ParsedChecklist) (uri n : String) (f : Field)
    (h : lastProducer n (flattenFields cl.field_groups) = some f) :
    dictGet n (schemaEnums (convert_to_linkml cl uri)) = some (_build_enum f) := by
  rw [schemaEnums_convert, dictGet_enums_buildFold, h]

/-- C9 witness: the two distinct choice fields `a_b` and `a__b` both derive
`ABMenu`; the stored entry is the later field's enum (permissible value `y`,
not `x`). -/
theorem C9_enum_last_write_wins_witness :
    dictGet "ABMenu" (schemaEnums (convert_to_linkml checklistEnumClash "u")) =
        some (_build_enum (mkChoiceField "a__b" ["y"])) ∧
      _build_enum (mkChoiceField "a__b" ["y"]) = ⟨"ABMenu", [("y", "y")]⟩ :=
  ⟨C9_enum_last_write_wins checklistEnumClash "u" "ABMenu" (mkChoiceField "a__b" ["y"])
      (by decide),
   by decide⟩

/-! ### C10: record names match dict keys -/

/-- C10: every slot record is stored under its own `name` (the source field's
name), and every enum record is stored under its own `name`. -/
theorem C10_name_matches_key (cl : ParsedChecklist) (uri : String) :
    (∀ p ∈ (convert_to_linkml cl uri).slots, p.2.name = p.1) ∧
      (∀ p ∈ schemaEnums (convert_to_linkml cl uri), p.2.name = p.1) := by
  constructor
  · intro p hp
    rw [convert_slots] at hp
    rcases mem_slots_buildFold _ _ p hp with h1 | ⟨gf, _, hpq⟩
    · cases h1
    · subst hpq; rfl
  · intro p hp
    rw [schemaEnums_convert] at hp
    rcases mem_enums_buildFold _ _ p hp with h1 | ⟨gf, _, _, _, hpq⟩
    · cases h1
    · subst hpq; rfl

/-- C10 witness: a concrete slot entry and a concrete enum entry of the
converted checklist each carry their key as their `name`. -/
theorem C10_name_matches_key_witness :
    (_build_slot (mkField "a")).name = "a" ∧
      (_build_enum (mkChoiceField "b" ["x", "y"])).name = "BMenu" :=
  ⟨(C10_name_matches_key checklistPlain "u").1 ("a", _build_slot (mkField "a")) (by decide),
   (C10_name_matches_key checklistPlain "u").2
      ("BMenu", _build_enum (mkChoiceField "b" ["x", "y"])) (by decide)⟩

end EnaToLinkml
